import Mathlib

/-!
Verification of the indicator, classification, session-window, fetch-retry and
batch-aggregation logic of the Max-pump-zone dashboard (src/src/App.js).

Numbers are modelled over the rationals. JavaScript numbers that can be NaN or
an infinity (RSI series entries and the momentum extremes) are modelled by the
type XQ below, whose comparison and arithmetic operations follow IEEE / JS
semantics on those values (any comparison with NaN is false, NaN propagates
through arithmetic, opposite infinities subtract to an infinity, equal
infinities subtract to NaN).
-/

/-- Extended rational mirroring a JavaScript number as used by the dashboard:
finite value, NaN, or one of the two infinities. -/
inductive XQ
  | nan
  | negInf
  | posInf
  | fin (q : ℚ)
deriving DecidableEq

namespace XQ

/-- JS strict less-than: false whenever either side is NaN. -/
def jsLt : XQ → XQ → Bool
  | .nan, _ => false
  | _, .nan => false
  | .negInf, .negInf => false
  | .negInf, _ => true
  | .posInf, _ => false
  | .fin _, .negInf => false
  | .fin _, .posInf => true
  | .fin a, .fin b => decide (a < b)

/-- JS strict greater-than. -/
def jsGt (a b : XQ) : Bool := jsLt b a

/-- JS less-or-equal: false whenever either side is NaN. -/
def jsLe : XQ → XQ → Bool
  | .nan, _ => false
  | _, .nan => false
  | .negInf, _ => true
  | .posInf, .posInf => true
  | .posInf, _ => false
  | .fin _, .negInf => false
  | .fin _, .posInf => true
  | .fin a, .fin b => decide (a ≤ b)

/-- JS greater-or-equal. -/
def jsGe (a b : XQ) : Bool := jsLe b a

/-- JS subtraction on the extended values. -/
def jsSub : XQ → XQ → XQ
  | .nan, _ => .nan
  | _, .nan => .nan
  | .posInf, .posInf => .nan
  | .posInf, _ => .posInf
  | .negInf, .negInf => .nan
  | .negInf, _ => .negInf
  | .fin _, .posInf => .negInf
  | .fin _, .negInf => .posInf
  | .fin a, .fin b => .fin (a - b)

/-- JS Math.abs on the extended values. -/
def jsAbs : XQ → XQ
  | .nan => .nan
  | .posInf => .posInf
  | .negInf => .posInf
  | .fin a => .fin |a|

end XQ

/-! ## Indicator library (calculateEMA, calculateRSI), from src/src/App.js lines 10-82 -/

/-- One iteration of the calculateEMA loop (App.js lines 15-32). The state is
the pair (previousEma, ema-array-so-far); previousEma is none while still null.
The index tests are taken over ℤ exactly as JS evaluates i < period - 1 and
i === period - 1 (relevant when period = 0). -/
def emaStep (data : List ℚ) (period : ℕ) (k : ℚ) (st : Option ℚ × List XQ) (i : ℕ) :
    Option ℚ × List XQ :=
  if (i : ℤ) < (period : ℤ) - 1 then (st.1, st.2 ++ [XQ.nan])
  else
    let prev : Option ℚ :=
      if (i : ℤ) = (period : ℤ) - 1 then some ((data.take period).sum / (period : ℚ))
      else st.1
    match prev with
    | some p =>
      let cur := data.getD i 0 * k + p * (1 - k)
      (some cur, st.2 ++ [XQ.fin cur])
    | none => st

/-- calculateEMA (App.js lines 10-34): smoothing constant k = 2/(period+1),
loop over all indices of data. -/
def calculateEMA (data : List ℚ) (period : ℕ) : List XQ :=
  ((List.range data.length).foldl (emaStep data period (2 / ((period : ℚ) + 1))) (none, [])).2

/-- The simple average of the first period values (App.js line 23), the seed
of the EMA recursion. -/
def emaSMA (data : List ℚ) (period : ℕ) : ℚ := (data.take period).sum / (period : ℚ)

/-- Closed form of the defined EMA values: offset j counts from the first
defined index p1 = period - 1. Offset 0 already applies the smoothing formula
to the SMA seed, exactly as the JS loop does at i = period - 1. -/
def emaFrom (data : List ℚ) (k sma : ℚ) (p1 : ℕ) : ℕ → ℚ
  | 0 => data.getD p1 0 * k + sma * (1 - k)
  | j + 1 => data.getD (p1 + (j + 1)) 0 * k + emaFrom data k sma p1 j * (1 - k)

/-- The value calculateEMA emits at index i: NaN before index period - 1,
otherwise the closed form above. -/
def emaOut (data : List ℚ) (period : ℕ) (k : ℚ) (i : ℕ) : XQ :=
  if i < period - 1 then XQ.nan
  else XQ.fin (emaFrom data k (emaSMA data period) (period - 1) (i - (period - 1)))

/-- RSI value from the running averages (App.js lines 62-63 and 73-74): when
avgLoss is zero, JS sets RS = Infinity and 100 - 100/(1 + Infinity) evaluates
to exactly 100; otherwise 100 - 100/(1 + avgGain/avgLoss). -/
def rsiFromAvg (avgGain avgLoss : ℚ) : ℚ :=
  if avgLoss = 0 then 100 else 100 - 100 / (1 + avgGain / avgLoss)

/-- One iteration of the seed loop of calculateRSI (App.js lines 51-58),
accumulating (gains, losses); j runs over 0..period-1 standing for i = j+1. -/
def rsiSeedStep (closes : List ℚ) (gl : ℚ × ℚ) (j : ℕ) : ℚ × ℚ :=
  let diff := closes.getD (j + 1) 0 - closes.getD j 0
  if diff > 0 then (gl.1 + diff, gl.2) else (gl.1, gl.2 - diff)

/-- One iteration of the main loop of calculateRSI (App.js lines 65-75),
state (avgGain, avgLoss, rsi-values-emitted-so-far); j stands for the JS
index i = period + 1 + j. -/
def rsiMainStep (closes : List ℚ) (period : ℕ) (st : ℚ × ℚ × List XQ) (j : ℕ) :
    ℚ × ℚ × List XQ :=
  let i := period + 1 + j
  let diff := closes.getD i 0 - closes.getD (i - 1) 0
  let gain := if diff > 0 then diff else 0
  let loss := if diff < 0 then -diff else 0
  let ag := (st.1 * ((period : ℚ) - 1) + gain) / (period : ℚ)
  let al := (st.2.1 * ((period : ℚ) - 1) + loss) / (period : ℚ)
  (ag, al, st.2.2 ++ [XQ.fin (rsiFromAvg ag al)])

/-- calculateRSI (App.js lines 42-82). Returns the empty list when
closes.length is at most period; otherwise period leading NaN entries, the
seeded value at index period, and one value per further index. The model is
used with period at least 1 (the dashboard calls it with period 14; for
period = 0 the JS code degenerates to 0/0 = NaN chains not modelled here). -/
def calculateRSI (closes : List ℚ) (period : ℕ) : List XQ :=
  if closes.length ≤ period then []
  else
    let seed := (List.range period).foldl (rsiSeedStep closes) (0, 0)
    let avgGain := seed.1 / (period : ℚ)
    let avgLoss := seed.2 / (period : ℚ)
    let main := (List.range (closes.length - (period + 1))).foldl
      (rsiMainStep closes period) (avgGain, avgLoss, [])
    List.replicate period XQ.nan ++ [XQ.fin (rsiFromAvg avgGain avgLoss)] ++ main.2.2

/-! ## Momentum snapshot (getRecentRSIDiff) and classifier (getSignal),
App.js lines 90-165 -/

/-- JS Array.prototype.slice with a negative argument: slice(-n) keeps the
last n elements, except that slice(-0) = slice(0) keeps the whole array. -/
def sliceNeg (l : List XQ) (n : ℕ) : List XQ :=
  if n = 0 then l else l.drop (l.length - n)

/-- One iteration of the high/low scan of getRecentRSIDiff (App.js lines
97-102): NaN entries are skipped, others update recentHigh/recentLow via JS
comparisons. -/
def hlStep (hl : XQ × XQ) (value : XQ) : XQ × XQ :=
  if value ≠ XQ.nan then
    (if value.jsGt hl.1 then value else hl.1,
     if value.jsLt hl.2 then value else hl.2)
  else hl

/-- Result record of getRecentRSIDiff (App.js lines 112-119). -/
structure RSIDiff where
  recentHigh : XQ
  recentLow : XQ
  pumpStrength : XQ
  dumpStrength : XQ
  direction : String
  strength : XQ
deriving DecidableEq

/-- getRecentRSIDiff (App.js lines 90-120). The window start and end reads
recentRSI[0] and recentRSI[length-1] are modelled with NaN as the
out-of-bounds default, matching how the JS undefined behaves in the
comparisons and subtraction that consume them. -/
def getRecentRSIDiff (rsi : List XQ) (lookback : ℕ) : Option RSIDiff :=
  if rsi.length < lookback then none
  else
    let recentRSI := sliceNeg rsi lookback
    let hl := recentRSI.foldl hlStep (XQ.negInf, XQ.posInf)
    let recentHigh := hl.1
    let recentLow := hl.2
    let pumpStrength := recentHigh.jsSub recentLow
    let dumpStrength := (recentLow.jsSub recentHigh).jsAbs
    let startRSI := recentRSI.headD XQ.nan
    let endRSI := recentRSI.getLastD XQ.nan
    let direction :=
      if endRSI.jsGt startRSI then "pump"
      else if endRSI.jsLt startRSI then "dump"
      else "neutral"
    let strength := (endRSI.jsSub startRSI).jsAbs
    some { recentHigh := recentHigh, recentLow := recentLow,
           pumpStrength := pumpStrength, dumpStrength := dumpStrength,
           direction := direction, strength := strength }

/-- inRange of getSignal (App.js lines 137-138); the val !== undefined guard
is always true for a number and is dropped. -/
def inRange (val mn mx : XQ) : Bool := val.jsGe mn && val.jsLe mx

/-- isAbove30 of getSignal (App.js lines 140-141). -/
def isAbove30 (val : XQ) : Bool := val.jsGe (XQ.fin 30)

/-- getSignal (App.js lines 127-165). The argument models s.rsi14: none for a
missing (falsy) series, some r for a present array r. -/
def getSignal (rsi14 : Option (List XQ)) : String :=
  let pumpDump :=
    match rsi14 with
    | some r => getRecentRSIDiff r 14
    | none => none
  match pumpDump with
  | none => "NO DATA"
  | some pd =>
    let direction := pd.direction
    let pump := pd.pumpStrength
    let dump := pd.dumpStrength
    let pumpAbove30 := isAbove30 pump
    let dumpAbove30 := isAbove30 dump
    let pumpInRange_21_26 := inRange pump (XQ.fin 21) (XQ.fin 26)
    let dumpInRange_21_26 := inRange dump (XQ.fin 21) (XQ.fin 26)
    let pumpInRange_1_10 := inRange pump (XQ.fin 1) (XQ.fin 10)
    let dumpInRange_1_10 := inRange dump (XQ.fin 1) (XQ.fin 10)
    if direction == "pump" && pumpAbove30 then "MAX ZONE PUMP"
    else if direction == "dump" && dumpAbove30 then "MAX ZONE DUMP"
    else if pumpInRange_21_26 && direction == "pump" then "BALANCE ZONE PUMP"
    else if dumpInRange_21_26 && direction == "dump" then "BALANCE ZONE DUMP"
    else if pumpInRange_1_10 && direction == "pump" then "LOWEST ZONE PUMP"
    else if dumpInRange_1_10 && direction == "dump" then "LOWEST ZONE DUMP"
    else "NO STRONG SIGNAL"

/-! ## Session window calculator (getSessions), App.js lines 175-231 -/

/-- Days from the Unix epoch to the civil date y-m-d (month 1..12, day
1-based), proleptic Gregorian, standard integer algorithm. -/
def daysFromCivil (y m d : ℤ) : ℤ :=
  let yAdj := y - (if m ≤ 2 then 1 else 0)
  let era := Int.fdiv yAdj 400
  let yoe := yAdj - era * 400
  let mp := Int.emod (m + 9) 12
  let doy := Int.fdiv (153 * mp + 2) 5 + d - 1
  let doe := yoe * 365 + Int.fdiv yoe 4 - Int.fdiv yoe 100 + doy
  era * 146097 + doe - 719468

/-- ECMAScript Date.UTC(y, m, d, h, min) in milliseconds: month overflow is
folded into the year, day/hour/minute overflow linearly; two-digit years map
to 19xx. -/
def dateUTC (y m d h min : ℤ) : ℤ :=
  let yy := if 0 ≤ y ∧ y ≤ 99 then y + 1900 else y
  let ym := yy + Int.fdiv m 12
  let mn := Int.emod m 12
  (daysFromCivil ym (mn + 1) 1 + (d - 1)) * 86400000 + h * 3600000 + min * 60000

/-- getUTCMillisFor1d (App.js lines 195-196): a UTC+8 wall-clock hour is
converted to UTC by subtracting 8 hours. -/
def getUTCMillisFor1d (y m d hPH min : ℤ) : ℤ := dateUTC y m d (hPH - 8) min

/-- SessionWindow record (App.js lines 215 and 229). -/
structure SessionWindow where
  sessionStart : ℤ
  sessionEnd : ℤ
  prevSessionStart : ℤ
  prevSessionEnd : ℤ
deriving DecidableEq

/-- Millisecond length of the non-daily timeframes (App.js lines 218-221); a
timeframe outside the table yields none (JS would read undefined). -/
def tfMillisOf (tf : String) : Option ℤ :=
  if tf = "15m" then some 900000
  else if tf = "4h" then some 14400000
  else none

/-- getSessions (App.js lines 186-231). The call time now is passed as its
UTC calendar decomposition (year, month 0-based, date) together with its epoch
milliseconds, which is how the JS code reads it. -/
def getSessions (tf : String) (year month date nowMillis : ℤ) : Option SessionWindow :=
  if tf = "" ∨ tf = "1d" then
    let today8AM_UTC := getUTCMillisFor1d year month date 8 0
    let tomorrow745AM_UTC := getUTCMillisFor1d year month (date + 1) 7 45
    let prevSessionStart := getUTCMillisFor1d year month (date - 1) 8 0
    let prevSessionEnd := getUTCMillisFor1d year month date 7 45
    if nowMillis ≥ today8AM_UTC then
      some { sessionStart := today8AM_UTC, sessionEnd := tomorrow745AM_UTC,
             prevSessionStart := prevSessionStart, prevSessionEnd := prevSessionEnd }
    else
      some { sessionStart := getUTCMillisFor1d year month (date - 1) 8 0,
             sessionEnd := getUTCMillisFor1d year month date 7 45,
             prevSessionStart := prevSessionStart, prevSessionEnd := prevSessionEnd }
  else
    match tfMillisOf tf with
    | none => none
    | some tfMillis =>
      let sessionStart := Int.fdiv nowMillis tfMillis * tfMillis
      some { sessionStart := sessionStart, sessionEnd := sessionStart + tfMillis,
             prevSessionStart := sessionStart - tfMillis, prevSessionEnd := sessionStart }

/-! ## Resilient fetcher (fetchWithRetry), App.js lines 240-283.

The HTTP environment is modelled as a script mapping the attempt number to the
outcome of that GET. The function returns a trace: how many GETs were
performed, the list of backoff sleeps (in ms), and the final outcome. -/

/-- The JSON value the code inspects: an opaque success payload, or an error
object with optional code and msg fields. -/
inductive JsVal
  | payload (id : ℕ)
  | errObj (code : Option ℤ) (msg : Option String)
deriving DecidableEq

instance {ε α : Type} [DecidableEq ε] [DecidableEq α] : DecidableEq (Except ε α)
  | .error a, .error b =>
    if h : a = b then .isTrue (h ▸ rfl) else .isFalse (fun hh => h (by injection hh))
  | .error _, .ok _ => .isFalse (fun hh => Except.noConfusion hh)
  | .ok _, .error _ => .isFalse (fun hh => Except.noConfusion hh)
  | .ok a, .ok b =>
    if h : a = b then .isTrue (h ▸ rfl) else .isFalse (fun hh => h (by injection hh))

/-- One HTTP response: status, optional Retry-After header (seconds),
statusText, and the result of response.json() (error = the parse threw). -/
structure HttpResp where
  status : ℕ
  retryAfter : Option ℕ
  statusText : String
  json : Except String JsVal
deriving DecidableEq

/-- Outcome of one GET attempt: the fetch call itself threw, or a response. -/
inductive AttemptResult
  | netThrow (msg : String)
  | resp (r : HttpResp)
deriving DecidableEq

/-- Final outcome of fetchWithRetry: parsed JSON, null, or a thrown error. -/
inductive Outcome
  | success (v : JsVal)
  | retNull
  | threw (msg : String)
deriving DecidableEq

/-- Observable trace of one fetchWithRetry call. -/
structure Trace where
  gets : ℕ
  sleeps : List ℤ
  outcome : Outcome
deriving DecidableEq

/-- response.ok: status in the 2xx range. -/
def respOk (status : ℕ) : Bool := 200 ≤ status && status ≤ 299

/-- JS String.prototype.includes for the fixed pattern used at App.js line
275. -/
def includesInvalidSymbol (m : String) : Bool := (m.splitOn "Invalid symbol").length != 1

/-- errorBody.code: undefined (none) unless the body is an error object. -/
def errCode : JsVal → Option ℤ
  | .payload _ => none
  | .errObj c _ => c

/-- errorBody.msg: undefined (none) unless the body is an error object. -/
def errMsg : JsVal → Option String
  | .payload _ => none
  | .errObj _ m => m

/-- Message of the Error thrown at App.js line 263: errorBody.msg when it is
truthy, else response.statusText. -/
def httpErrorMessage (status : ℕ) (body : JsVal) (statusText : String) : String :=
  "HTTP error! status: " ++ toString status ++ ", message: " ++
    (match errMsg body with
     | some m => if m = "" then statusText else m
     | none => statusText)

/-- Prefix a trace with one performed GET and one sleep of w milliseconds. -/
def withGetSleep (w : ℤ) (t : Trace) : Trace :=
  { gets := t.gets + 1, sleeps := w :: t.sleeps, outcome := t.outcome }

/-- Record one performed GET with no sleep in front of a finished trace. -/
def oneGet (o : Outcome) : Trace := { gets := 1, sleeps := [], outcome := o }

/-- The retry loop of fetchWithRetry (App.js lines 241-281): i is the JS loop
counter, rem the number of iterations the bound i < retries still allows
(rem = retries - i along any call from fetchWithRetry). rem = 0 is the loop
exiting, which falls through to return null (line 282). The catch block
(lines 266-280) is catchPath. -/
def fetchGo (script : ℕ → AttemptResult) (retries : ℕ) (delay : ℤ) :
    ℕ → ℕ → Trace
  | _, 0 => { gets := 0, sleeps := [], outcome := Outcome.retNull }
  | i, rem + 1 =>
    let next := fetchGo script retries delay (i + 1) rem
    let catchPath : String → Trace := fun m =>
      if i < retries - 1 then withGetSleep (delay * 2 ^ i) next
      else if includesInvalidSymbol m then oneGet Outcome.retNull
      else oneGet (Outcome.threw m)
    match script i with
    | AttemptResult.netThrow m => catchPath m
    | AttemptResult.resp r =>
      if r.status = 429 ∨ r.status = 418 then
        let waitTime : ℤ :=
          match r.retryAfter with
          | some s => (s : ℤ) * 1000
          | none => delay * 2 ^ i
        withGetSleep waitTime next
      else if !respOk r.status then
        match r.json with
        | Except.error m => catchPath m
        | Except.ok body =>
          if errCode body = some (-1003) then
            withGetSleep (delay * 2 ^ i) next
          else if errCode body = some (-1121) ∨ errMsg body = some "Invalid symbol." ∨
              errMsg body = some "Invalid symbol status." then
            oneGet Outcome.retNull
          else catchPath (httpErrorMessage r.status body r.statusText)
      else
        match r.json with
        | Except.ok v => oneGet (Outcome.success v)
        | Except.error m => catchPath m

/-- fetchWithRetry (App.js lines 240-283) run against a script of attempt
outcomes. -/
def fetchWithRetry (script : ℕ → AttemptResult) (retries : ℕ) (delay : ℤ) : Trace :=
  fetchGo script retries delay 0 retries

/-! ## Batch aggregation (processBatch), App.js lines 429-446 -/

/-- Promise.all over the settled per-symbol promises of one batch: rejects
with the first rejection, otherwise resolves with the list of values. -/
def promiseAll {α : Type} (l : List (Except String α)) : Except String (List α) :=
  l.foldr
    (fun x acc =>
      match x, acc with
      | Except.error e, _ => Except.error e
      | Except.ok _, Except.error e => Except.error e
      | Except.ok a, Except.ok as => Except.ok (a :: as))
    (Except.ok [])

/-- The append step of processBatch (App.js lines 429-434): await the whole
batch, then setSignals appends the non-null analyses. An exception from any
one symbol rejects the await itself and no append happens. -/
def processBatchAppend {α : Type} (prev : List α) (fetched : List (Except String (Option α))) :
    Except String (List α) :=
  match promiseAll fetched with
  | Except.error e => Except.error e
  | Except.ok newSignals => Except.ok (prev ++ newSignals.filterMap id)

/-! ## Helper lemmas -/

theorem foldl_inv {α β : Type} (P : β → Prop) (f : β → α → β) :
    ∀ (l : List α) (b : β), P b → (∀ b a, a ∈ l → P b → P (f b a)) → P (l.foldl f b) := by
  intro l
  induction l with
  | nil => intro b hb _; simpa using hb
  | cons x xs ih =>
    intro b hb hf
    simp only [List.foldl_cons]
    exact ih _ (hf b x (by simp) hb) (fun b a ha hb2 => hf b a (by simp [ha]) hb2)

theorem jsLt_nan_right (x : XQ) : x.jsLt XQ.nan = false := by cases x <;> rfl

theorem jsLt_nan_left (x : XQ) : XQ.nan.jsLt x = false := by cases x <;> rfl

theorem getD_range_map {α : Type} (f : ℕ → α) (n i : ℕ) (d : α) (h : i < n) :
    ((List.range n).map f).getD i d = f i := by
  rw [List.getD_eq_getElem _ _ (by simpa using h)]
  simp

theorem ema_foldl_char (data : List ℚ) (period : ℕ) (k : ℚ) (hp : 1 ≤ period) (n : ℕ) :
    (List.range n).foldl (emaStep data period k) (none, []) =
      ((if n < period then none
        else some (emaFrom data k (emaSMA data period) (period - 1) (n - period))),
       (List.range n).map (emaOut data period k)) := by
  obtain ⟨p, rfl⟩ : ∃ p, period = p + 1 := ⟨period - 1, by omega⟩
  induction n with
  | zero => simp
  | succ n ih =>
    rw [List.range_succ, List.foldl_append, ih, List.map_append]
    simp only [List.foldl_cons, List.foldl_nil, List.map_cons, List.map_nil]
    rcases lt_trichotomy n p with h | h | h
    · have hc : (n : ℤ) < ((p + 1 : ℕ) : ℤ) - 1 := by push_cast; omega
      rw [emaStep, if_pos hc]
      have h1 : n < p + 1 := by omega
      have h2 : n + 1 < p + 1 := by omega
      rw [if_pos h1, if_pos h2]
      have h3 : emaOut data (p + 1) k n = XQ.nan := by
        rw [emaOut, if_pos (by omega)]
      rw [h3]
    · subst h
      have hc : ¬ ((n : ℤ) < ((n + 1 : ℕ) : ℤ) - 1) := by push_cast; omega
      have hc2 : (n : ℤ) = ((n + 1 : ℕ) : ℤ) - 1 := by push_cast; omega
      rw [emaStep, if_neg hc]
      simp only [if_pos hc2, if_pos (Nat.lt_succ_self n)]
      have h4 : ¬ (n + 1 < n + 1) := by omega
      rw [if_neg h4]
      have h5 : emaOut data (n + 1) k n =
          XQ.fin (emaFrom data k (emaSMA data (n + 1)) n 0) := by
        rw [emaOut, if_neg (by omega)]
        simp
      have h6 : n + 1 - (n + 1) = 0 := by omega
      rw [h5, h6]
      simp [emaFrom, emaSMA]
    · have hc : ¬ ((n : ℤ) < ((p + 1 : ℕ) : ℤ) - 1) := by push_cast; omega
      have hc2 : ¬ ((n : ℤ) = ((p + 1 : ℕ) : ℤ) - 1) := by push_cast; omega
      rw [emaStep, if_neg hc]
      simp only [if_neg hc2]
      have h1 : ¬ (n < p + 1) := by omega
      have h2 : ¬ (n + 1 < p + 1) := by omega
      rw [if_neg h1, if_neg h2]
      obtain ⟨j, rfl⟩ : ∃ j, n = (p + 1) + j := ⟨n - (p + 1), by omega⟩
      have h7 : (p + 1) + j - (p + 1) = j := by omega
      have h8 : (p + 1) + j + 1 - (p + 1) = j + 1 := by omega
      have h9 : (p + 1) + j - p = j + 1 := by omega
      have h10 : p + (j + 1) = (p + 1) + j := by omega
      have h11 : emaOut data (p + 1) k ((p + 1) + j) =
          XQ.fin (emaFrom data k (emaSMA data (p + 1)) p (j + 1)) := by
        rw [emaOut, if_neg (by omega)]
        simp only [Nat.add_sub_cancel, h9]
      rw [h7, h8, h11]
      simp only [emaFrom, Nat.add_sub_cancel, h10]

theorem calculateEMA_eq_map (data : List ℚ) (period : ℕ) (hp : 1 ≤ period) :
    calculateEMA data period =
      (List.range data.length).map (emaOut data period (2 / ((period : ℚ) + 1))) := by
  rw [calculateEMA, ema_foldl_char data period _ hp]

theorem chain'_getD_lt (l : List ℚ) (h : l.Chain' (· < ·)) (i : ℕ) (hi : i + 1 < l.length) :
    l.getD i 0 < l.getD (i + 1) 0 := by
  rw [List.getD_eq_getElem _ _ (by omega), List.getD_eq_getElem _ _ hi]
  have := List.chain'_iff_get.mp h i (by omega)
  simpa using this

theorem rsiMain_foldl_length (closes : List ℚ) (period : ℕ) :
    ∀ (l : List ℕ) (st : ℚ × ℚ × List XQ),
      (l.foldl (rsiMainStep closes period) st).2.2.length = st.2.2.length + l.length := by
  intro l
  induction l with
  | nil => intro st; simp
  | cons x xs ih =>
    intro st
    simp only [List.foldl_cons, List.length_cons]
    rw [ih]
    simp [rsiMainStep]
    omega

theorem hl_foldl_char :
    ∀ (l : List XQ) (hl : XQ × XQ),
      (∀ x ∈ l, x ≠ XQ.posInf ∧ x ≠ XQ.negInf) →
      (hl = (XQ.negInf, XQ.posInf) ∨ ∃ a b : ℚ, hl = (XQ.fin a, XQ.fin b) ∧ b ≤ a) →
      ((l.foldl hlStep hl = (XQ.negInf, XQ.posInf) ∧ hl = (XQ.negInf, XQ.posInf) ∧
          ∀ x ∈ l, x = XQ.nan) ∨
        ∃ a b : ℚ, l.foldl hlStep hl = (XQ.fin a, XQ.fin b) ∧ b ≤ a) := by
  intro l
  induction l with
  | nil =>
    intro hl _ hstart
    rcases hstart with h | h
    · exact Or.inl ⟨by simpa using h, h, by simp⟩
    · exact Or.inr (by simpa using h)
  | cons x xs ih =>
    intro hl hfin hstart
    simp only [List.foldl_cons]
    by_cases hx : x = XQ.nan
    · subst hx
      have hstep : hlStep hl XQ.nan = hl := by simp [hlStep]
      rw [hstep]
      rcases ih hl (fun y hy => hfin y (by simp [hy])) hstart with ⟨h1, h2, h3⟩ | h
      · exact Or.inl ⟨h1, h2, by simpa using h3⟩
      · exact Or.inr h
    · obtain ⟨v, rfl⟩ : ∃ v : ℚ, x = XQ.fin v := by
        have := hfin x (by simp)
        cases x with
        | nan => exact absurd rfl hx
        | posInf => exact absurd rfl this.1
        | negInf => exact absurd rfl this.2
        | fin v => exact ⟨v, rfl⟩
      have hnext :
          ∃ a b : ℚ, hlStep hl (XQ.fin v) = (XQ.fin a, XQ.fin b) ∧ b ≤ a := by
        rcases hstart with h | ⟨a, b, h, hba⟩
        · subst h
          refine ⟨v, v, ?_, le_refl v⟩
          simp [hlStep, XQ.jsGt, XQ.jsLt]
        · subst h
          simp only [hlStep, if_pos hx, XQ.jsGt, XQ.jsLt]
          by_cases hav : a < v
          · by_cases hvb : v < b
            · exact ⟨v, v, by simp [hav, hvb], le_refl v⟩
            · exact ⟨v, b, by simp [hav, hvb], le_of_lt (lt_of_le_of_lt hba hav)⟩
          · by_cases hvb : v < b
            · exact ⟨a, v, by simp [hav, hvb], le_of_lt (lt_of_lt_of_le hvb hba)⟩
            · exact ⟨a, b, by simp [hav, hvb], hba⟩
      obtain ⟨a, b, heq, hba⟩ := hnext
      rcases ih (hlStep hl (XQ.fin v)) (fun y hy => hfin y (by simp [hy]))
          (Or.inr ⟨a, b, heq, hba⟩) with ⟨h1, h2, h3⟩ | h
      · rw [heq] at h2
        exact absurd h2 (by simp)
      · exact Or.inr h

@[simp] theorem fin_ne_nan (q : ℚ) : XQ.fin q ≠ XQ.nan := by intro h; cases h

@[simp] theorem jsLt_fin_fin (a b : ℚ) : (XQ.fin a).jsLt (XQ.fin b) = decide (a < b) := rfl

@[simp] theorem jsLt_negInf_fin (b : ℚ) : XQ.negInf.jsLt (XQ.fin b) = true := rfl

@[simp] theorem jsLt_fin_negInf (a : ℚ) : (XQ.fin a).jsLt XQ.negInf = false := rfl

@[simp] theorem jsLt_fin_posInf (a : ℚ) : (XQ.fin a).jsLt XQ.posInf = true := rfl

@[simp] theorem jsLt_posInf_left (x : XQ) : XQ.posInf.jsLt x = false := by cases x <;> rfl

@[simp] theorem jsGt_unfold (a b : XQ) : a.jsGt b = b.jsLt a := rfl

@[simp] theorem jsGe_unfold (a b : XQ) : a.jsGe b = b.jsLe a := rfl

@[simp] theorem jsLe_fin_fin (a b : ℚ) : (XQ.fin a).jsLe (XQ.fin b) = decide (a ≤ b) := rfl

@[simp] theorem jsLe_negInf_left (x : XQ) (h : x ≠ XQ.nan) : XQ.negInf.jsLe x = true := by
  cases x with
  | nan => exact absurd rfl h
  | _ => rfl

@[simp] theorem jsLe_fin_posInf (a : ℚ) : (XQ.fin a).jsLe XQ.posInf = true := rfl

@[simp] theorem jsLe_posInf_fin (a : ℚ) : XQ.posInf.jsLe (XQ.fin a) = false := rfl

@[simp] theorem jsSub_fin_fin (a b : ℚ) : (XQ.fin a).jsSub (XQ.fin b) = XQ.fin (a - b) := rfl

@[simp] theorem jsAbs_fin (a : ℚ) : (XQ.fin a).jsAbs = XQ.fin |a| := rfl

@[simp] theorem hlStep_nan (hl : XQ × XQ) : hlStep hl XQ.nan = hl := by simp [hlStep]

@[simp] theorem hlStep_fin (hl : XQ × XQ) (v : ℚ) :
    hlStep hl (XQ.fin v) =
      (if (XQ.fin v).jsGt hl.1 then XQ.fin v else hl.1,
       if (XQ.fin v).jsLt hl.2 then XQ.fin v else hl.2) := by
  simp [hlStep]

/-! ## Claim theorems -/

/-- Claim C1: whenever the last-14 window of an RSI series yields
direction = pump and a pump strength passing the at-least-30 test, getSignal
classifies it as MAX ZONE PUMP — the MAX rule fires first, so the BALANCE
label is never returned for such a series. -/
theorem getSignal_max_zone_pump (rsi : List XQ)
    (hdir : (getRecentRSIDiff rsi 14).map RSIDiff.direction = some "pump")
    (hpump : (getRecentRSIDiff rsi 14).map (fun pd => pd.pumpStrength.jsGe (XQ.fin 30)) =
      some true) :
    getSignal (some rsi) = "MAX ZONE PUMP" ∧ getSignal (some rsi) ≠ "BALANCE ZONE PUMP" := by
  cases h : getRecentRSIDiff rsi 14 with
  | none => rw [h] at hdir; exact absurd hdir (by simp)
  | some pd =>
    rw [h] at hdir hpump
    simp only [Option.map_some', Option.some_inj] at hdir hpump
    have hpump2 : (XQ.fin 30).jsLe pd.pumpStrength = true := hpump
    have h1 : getSignal (some rsi) = "MAX ZONE PUMP" := by
      simp only [getSignal, h]
      rw [hdir]
      simp [isAbove30, hpump2]
    refine ⟨h1, ?_⟩
    rw [h1]
    decide

/-- Witness for C1 at a concrete series with pumpStrength 35 and direction
pump. -/
theorem getSignal_max_zone_pump_witness :
    getSignal (some (XQ.fin 10 :: (List.replicate 12 (XQ.fin 20) ++ [XQ.fin 45]))) =
        "MAX ZONE PUMP" ∧
      getSignal (some (XQ.fin 10 :: (List.replicate 12 (XQ.fin 20) ++ [XQ.fin 45]))) ≠
        "BALANCE ZONE PUMP" :=
  getSignal_max_zone_pump _
    (by norm_num [getRecentRSIDiff, sliceNeg, List.replicate, XQ.jsSub])
    (by norm_num [getRecentRSIDiff, sliceNeg, List.replicate, XQ.jsSub])

/-- Claim C10: if the first or the last element of the last-14 window is the
NaN sentinel, both JS comparisons in the direction computation are false, so
getRecentRSIDiff reports direction neutral, and getSignal can only answer
NO STRONG SIGNAL (every zone rule requires direction pump or dump). -/
theorem getSignal_sentinel_endpoint_neutral (rsi : List XQ) (hlen : 14 ≤ rsi.length)
    (hend : (sliceNeg rsi 14).headD XQ.nan = XQ.nan ∨
      (sliceNeg rsi 14).getLastD XQ.nan = XQ.nan) :
    (getRecentRSIDiff rsi 14).map RSIDiff.direction = some "neutral" ∧
      getSignal (some rsi) = "NO STRONG SIGNAL" := by
  have hnl : ¬ (rsi.length < 14) := by omega
  have hdir :
      (if ((sliceNeg rsi 14).getLastD XQ.nan).jsGt ((sliceNeg rsi 14).headD XQ.nan) then "pump"
        else if ((sliceNeg rsi 14).getLastD XQ.nan).jsLt ((sliceNeg rsi 14).headD XQ.nan) then
          "dump"
        else "neutral") = "neutral" := by
    rcases hend with h | h
    · rw [h, XQ.jsGt, jsLt_nan_left, jsLt_nan_right]
      simp
    · rw [h, XQ.jsGt, jsLt_nan_left, jsLt_nan_right]
      simp
  have h1 : (getRecentRSIDiff rsi 14).map RSIDiff.direction = some "neutral" := by
    simp only [getRecentRSIDiff, if_neg hnl, Option.map_some']
    exact congrArg some hdir
  refine ⟨h1, ?_⟩
  cases h : getRecentRSIDiff rsi 14 with
  | none => rw [h] at h1; exact absurd h1 (by simp)
  | some pd =>
    rw [h] at h1
    simp only [Option.map_some', Option.some_inj] at h1
    have e1 : (("neutral" : String) == "pump") = false := by decide
    have e2 : (("neutral" : String) == "dump") = false := by decide
    simp only [getSignal, h]
    rw [h1]
    simp [e1, e2]

/-- Witness for C10 at a window whose first 13 entries are NaN. -/
theorem getSignal_sentinel_endpoint_neutral_witness :
    (getRecentRSIDiff (List.replicate 13 XQ.nan ++ [XQ.fin 50]) 14).map RSIDiff.direction =
        some "neutral" ∧
      getSignal (some (List.replicate 13 XQ.nan ++ [XQ.fin 50])) = "NO STRONG SIGNAL" :=
  getSignal_sentinel_endpoint_neutral _ (by decide) (Or.inl (by decide))

/-- Claim C4 counterexample: on a last-14 window consisting entirely of NaN
sentinels, recentHigh stays -Infinity and recentLow stays +Infinity, so
pumpStrength = -Infinity while dumpStrength = +Infinity: they are NOT equal,
contradicting the claim that the equality holds including this edge case. -/
theorem getRecentRSIDiff_allnan_cex :
    (getRecentRSIDiff (List.replicate 14 XQ.nan) 14).map RSIDiff.pumpStrength ≠
      (getRecentRSIDiff (List.replicate 14 XQ.nan) 14).map RSIDiff.dumpStrength := by
  decide

/-- Claim C4 amended: pumpStrength = dumpStrength holds for every RSI series
window (entries are finite or NaN, as calculateRSI produces) that contains at
least one defined value; in the all-sentinel edge case the two differ, being
the two opposite infinities. -/
theorem getRecentRSIDiff_pump_eq_dump (rsi : List XQ) (hlen : 14 ≤ rsi.length)
    (hfin : ∀ x ∈ sliceNeg rsi 14, x ≠ XQ.posInf ∧ x ≠ XQ.negInf)
    (hsome : ∃ x ∈ sliceNeg rsi 14, x ≠ XQ.nan) :
    (getRecentRSIDiff rsi 14).map RSIDiff.pumpStrength =
      (getRecentRSIDiff rsi 14).map RSIDiff.dumpStrength := by
  have hnl : ¬ (rsi.length < 14) := by omega
  obtain ⟨a, b, heq, hba⟩ :
      ∃ a b : ℚ, (sliceNeg rsi 14).foldl hlStep (XQ.negInf, XQ.posInf) = (XQ.fin a, XQ.fin b) ∧
        b ≤ a := by
    rcases hl_foldl_char (sliceNeg rsi 14) (XQ.negInf, XQ.posInf) hfin (Or.inl rfl) with
      ⟨h1, _, h3⟩ | h
    · obtain ⟨x, hx, hxn⟩ := hsome
      exact absurd (h3 x hx) hxn
    · exact h
  simp only [getRecentRSIDiff, if_neg hnl, Option.map_some', heq, jsSub_fin_fin, jsAbs_fin]
  have habs : |b - a| = a - b := by
    rw [abs_sub_comm]
    exact abs_of_nonneg (by linarith)
  rw [habs]

/-- Witness for C4 at a window with two defined values 7 and 3: both
strengths equal 4. -/
theorem getRecentRSIDiff_pump_eq_dump_witness :
    (getRecentRSIDiff (List.replicate 12 XQ.nan ++ [XQ.fin 7, XQ.fin 3]) 14).map
        RSIDiff.pumpStrength =
      (getRecentRSIDiff (List.replicate 12 XQ.nan ++ [XQ.fin 7, XQ.fin 3]) 14).map
        RSIDiff.dumpStrength :=
  getRecentRSIDiff_pump_eq_dump _ (by decide) (by decide) ⟨XQ.fin 7, by decide, by decide⟩

/-- Claim C2 counterexample: calculateRSI on an input of length 3 with period
14 returns the empty series (App.js lines 43-45), so the length-preservation
invariant fails for inputs whose length is at most the period. -/
theorem calculateRSI_short_input_cex :
    (calculateRSI [(1 : ℚ), 2, 3] 14).length ≠ ([(1 : ℚ), 2, 3] : List ℚ).length := by
  decide

/-- Claim C2 amended: calculateEMA always preserves the input length (for the
periods 14/70/200 the dashboard uses, in fact any period at least 1), while
calculateRSI preserves it only when the input is strictly longer than the
period and returns the empty series otherwise. -/
theorem indicatorSeries_length (data closes : List ℚ) (period : ℕ) (hp : 1 ≤ period) :
    (calculateEMA data period).length = data.length ∧
      (period < closes.length → (calculateRSI closes period).length = closes.length) ∧
      (closes.length ≤ period → calculateRSI closes period = []) := by
  refine ⟨?_, ?_, ?_⟩
  · rw [calculateEMA_eq_map data period hp]
    simp
  · intro h
    rw [calculateRSI, if_neg (by omega)]
    simp only [List.length_append, List.length_replicate, List.length_cons, List.length_nil]
    rw [rsiMain_foldl_length]
    simp only [List.length_nil, List.length_range]
    omega
  · intro h
    rw [calculateRSI, if_pos h]

/-- Witness for C2 amended at concrete inputs of lengths 2 and 3 with
period 1. -/
theorem indicatorSeries_length_witness :
    (calculateEMA [(1 : ℚ), 2] 1).length = 2 ∧ (calculateRSI [(1 : ℚ), 2, 3] 1).length = 3 := by
  have h := indicatorSeries_length [(1 : ℚ), 2] [(1 : ℚ), 2, 3] 1 (by norm_num)
  exact ⟨h.1, h.2.1 (by norm_num)⟩

/-- Claim C3 counterexample: calculateEMA [0,10] with period 2 holds 25/3 at
position period - 1 = 1, not the simple average 5 of the first two values —
the JS loop applies the smoothing update to the SMA seed at the seed index
itself (App.js lines 22-31). -/
theorem calculateEMA_seed_not_sma_cex :
    (calculateEMA [(0 : ℚ), 10] 2).getD 1 XQ.nan ≠ XQ.fin (((0 : ℚ) + 10) / 2) := by
  have h : calculateEMA [(0 : ℚ), 10] 2 = [XQ.nan, XQ.fin (25 / 3)] := by
    norm_num [calculateEMA, emaStep, List.range_succ]
  rw [h]
  norm_num

/-- Claim C3 amended: with k = 2/(period+1), the value at position period - 1
is close[period-1]*k + sma*(1-k) where sma is the simple average of the first
period values (the recurrence already applied once to the SMA seed), and every
subsequent position i satisfies value[i] = close[i]*k + value[i-1]*(1-k). -/
theorem calculateEMA_seed_recurrence (data : List ℚ) (period : ℕ) (hp : 1 ≤ period)
    (hlen : period ≤ data.length) :
    (calculateEMA data period).getD (period - 1) XQ.nan =
        XQ.fin (data.getD (period - 1) 0 * (2 / ((period : ℚ) + 1)) +
          emaSMA data period * (1 - 2 / ((period : ℚ) + 1))) ∧
      ∀ i q, period ≤ i → i < data.length →
        (calculateEMA data period).getD (i - 1) XQ.nan = XQ.fin q →
        (calculateEMA data period).getD i XQ.nan =
          XQ.fin (data.getD i 0 * (2 / ((period : ℚ) + 1)) +
            q * (1 - 2 / ((period : ℚ) + 1))) := by
  have hmap := calculateEMA_eq_map data period hp
  constructor
  · rw [hmap, getD_range_map _ _ _ _ (by omega), emaOut, if_neg (by omega)]
    have h0 : period - 1 - (period - 1) = 0 := by omega
    rw [h0]
    rfl
  · intro i q hpi hil hprev
    rw [hmap, getD_range_map _ _ _ _ (by omega), emaOut, if_neg (by omega)] at hprev
    rw [hmap, getD_range_map _ _ _ _ hil, emaOut, if_neg (by omega)]
    obtain ⟨j, rfl⟩ : ∃ j, i = period + j := ⟨i - period, by omega⟩
    have h1 : period + j - 1 - (period - 1) = j := by omega
    have h2 : period + j - (period - 1) = j + 1 := by omega
    rw [h1] at hprev
    rw [h2]
    have hq : emaFrom data (2 / ((period : ℚ) + 1)) (emaSMA data period) (period - 1) j = q := by
      injection hprev
    simp only [emaFrom]
    rw [hq]
    have h3 : period - 1 + (j + 1) = period + j := by omega
    rw [h3]

/-- Witness for C3 amended: for [1,2,3] with period 2 the seed position holds
2*(2/3) + (3/2)*(1/3) = 11/6. -/
theorem calculateEMA_seed_recurrence_witness :
    (calculateEMA [(1 : ℚ), 2, 3] 2).getD 1 XQ.nan = XQ.fin (11 / 6) := by
  have h := (calculateEMA_seed_recurrence [(1 : ℚ), 2, 3] 2 (by norm_num) (by norm_num)).1
  rw [h]
  norm_num [emaSMA]

/-- Claim C8: on a strictly increasing price series longer than the period,
every loss term is zero, so avgLoss stays zero through both loops, RS is
treated as positive infinity, and every defined RSI entry is exactly 100. -/
theorem calculateRSI_increasing_saturates (closes : List ℚ) (period : ℕ) (hp : 1 ≤ period)
    (hlen : period < closes.length) (hinc : closes.Chain' (· < ·)) :
    ∀ x ∈ calculateRSI closes period, x = XQ.nan ∨ x = XQ.fin 100 := by
  intro x hx
  rw [calculateRSI, if_neg (by omega)] at hx
  have hseed : ((List.range period).foldl (rsiSeedStep closes) ((0 : ℚ), (0 : ℚ))).2 = 0 := by
    apply foldl_inv (fun gl : ℚ × ℚ => gl.2 = 0)
    · rfl
    · intro b a ha hb
      have haP : a < period := List.mem_range.mp ha
      have hd : closes.getD a 0 < closes.getD (a + 1) 0 :=
        chain'_getD_lt closes hinc a (by omega)
      simp only [rsiSeedStep]
      rw [if_pos (sub_pos.mpr hd)]
      exact hb
  have hloop :
      ∀ (l : List ℕ) (ag : ℚ) (acc : List XQ),
        (∀ a ∈ l, a + period + 1 < closes.length) →
        (∀ y ∈ acc, y = XQ.nan ∨ y = XQ.fin 100) →
        ∀ y ∈ (l.foldl (rsiMainStep closes period) (ag, (0 : ℚ), acc)).2.2,
          y = XQ.nan ∨ y = XQ.fin 100 := by
    intro l
    induction l with
    | nil => intro ag acc _ hacc; simpa using hacc
    | cons a as ih =>
      intro ag acc hmem hacc
      simp only [List.foldl_cons]
      have hd : closes.getD (period + a) 0 < closes.getD (period + a + 1) 0 :=
        chain'_getD_lt closes hinc (period + a) (by
          have := hmem a (by simp)
          omega)
      have hstep :
          rsiMainStep closes period (ag, (0 : ℚ), acc) a =
            ((ag * ((period : ℚ) - 1) + (closes.getD (period + 1 + a) 0 -
                closes.getD (period + 1 + a - 1) 0)) / (period : ℚ), (0 : ℚ),
              acc ++ [XQ.fin 100]) := by
        have hidx : period + 1 + a - 1 = period + a := by omega
        have hidx2 : period + 1 + a = period + a + 1 := by omega
        have hdiff : (0 : ℚ) < closes.getD (period + 1 + a) 0 -
            closes.getD (period + 1 + a - 1) 0 := by
          rw [hidx, hidx2]
          exact sub_pos.mpr hd
        simp only [rsiMainStep]
        rw [if_pos hdiff, if_neg (by linarith)]
        have hal : ((0 : ℚ) * ((period : ℚ) - 1) + 0) / (period : ℚ) = 0 := by
          simp
        rw [hal, rsiFromAvg, if_pos rfl]
      rw [hstep]
      apply ih
      · intro b hb
        exact hmem b (by simp [hb])
      · intro y hy
        rcases List.mem_append.mp hy with h | h
        · exact hacc y h
        · simp only [List.mem_singleton] at h
          exact Or.inr h
  simp only [List.append_assoc, List.mem_append, List.mem_replicate, List.mem_singleton] at hx
  rcases hx with h | h | h
  · exact Or.inl h.2
  · subst h
    right
    have hal : ((List.range period).foldl (rsiSeedStep closes) ((0 : ℚ), (0 : ℚ))).2 /
        (period : ℚ) = 0 := by
      rw [hseed]
      simp
    rw [hal, rsiFromAvg, if_pos rfl]
  · have hal : ((List.range period).foldl (rsiSeedStep closes) ((0 : ℚ), (0 : ℚ))).2 /
        (period : ℚ) = 0 := by
      rw [hseed]
      simp
    rw [hal] at h
    exact hloop (List.range (closes.length - (period + 1))) _ [] (by
      intro a ha
      have := List.mem_range.mp ha
      omega) (by simp) x h

/-- Witness for C8 at the strictly increasing series [1,2,3,4,5] with
period 3. -/
theorem calculateRSI_increasing_saturates_witness :
    XQ.fin 100 = XQ.nan ∨ XQ.fin 100 = XQ.fin 100 :=
  calculateRSI_increasing_saturates [(1 : ℚ), 2, 3, 4, 5] 3 (by norm_num) (by norm_num)
    (by norm_num [List.chain'_cons]) (XQ.fin 100)
    (by
      have h : calculateRSI [(1 : ℚ), 2, 3, 4, 5] 3 =
          [XQ.nan, XQ.nan, XQ.nan, XQ.fin 100, XQ.fin 100] := by
        norm_num [calculateRSI, rsiSeedStep, rsiMainStep, rsiFromAvg, List.range_succ,
          List.replicate]
      rw [h]
      simp)

theorem fetchGo_rate_limited (script : ℕ → AttemptResult) (retries : ℕ) (delay : ℤ)
    (h : ∀ i, i < retries → ∃ r, script i = AttemptResult.resp r ∧
      (r.status = 429 ∨ r.status = 418)) :
    ∀ rem i, i + rem = retries →
      (fetchGo script retries delay i rem).gets = rem ∧
        (fetchGo script retries delay i rem).sleeps.length = rem ∧
        (fetchGo script retries delay i rem).outcome = Outcome.retNull := by
  intro rem
  induction rem with
  | zero => intro i hi; simp [fetchGo]
  | succ n ih =>
    intro i hi
    obtain ⟨r, hs, h429⟩ := h i (by omega)
    have hnext := ih (i + 1) (by omega)
    simp only [fetchGo, hs]
    rw [if_pos h429]
    simp only [withGetSleep, List.length_cons]
    exact ⟨by rw [hnext.1], by rw [hnext.2.1], hnext.2.2⟩

/-- Claim C5 counterexample: when every attempt answers HTTP 429, a call with
the default budget of 5 performs exactly 5 GET attempts — the nominal budget
is not exceeded (the final backoff sleep is merely wasted before the loop
exits with null). -/
theorem fetchWithRetry_rate_limit_budget_cex :
    (fetchWithRetry
        (fun _ => AttemptResult.resp
          { status := 429, retryAfter := none, statusText := "",
            json := Except.ok (JsVal.errObj none none) }) 5 1000).gets = 5 ∧
      ¬ 5 < (fetchWithRetry
        (fun _ => AttemptResult.resp
          { status := 429, retryAfter := none, statusText := "",
            json := Except.ok (JsVal.errObj none none) }) 5 1000).gets := by
  decide

/-- Claim C5 amended: when every attempt is rate limited (HTTP 429 or 418),
fetchWithRetry sleeps after every response, including the one received on the
last allowed attempt, but then exits the loop: exactly maxRetries GET
attempts are performed, maxRetries sleeps occur (the last one useless), and
null is returned. -/
theorem fetchWithRetry_all_rate_limited (script : ℕ → AttemptResult) (retries : ℕ)
    (delay : ℤ)
    (h : ∀ i, i < retries → ∃ r, script i = AttemptResult.resp r ∧
      (r.status = 429 ∨ r.status = 418)) :
    (fetchWithRetry script retries delay).gets = retries ∧
      (fetchWithRetry script retries delay).sleeps.length = retries ∧
      (fetchWithRetry script retries delay).outcome = Outcome.retNull :=
  fetchGo_rate_limited script retries delay h retries 0 (by omega)

/-- Witness for C5 amended with a constant-429 script and budget 3. -/
theorem fetchWithRetry_all_rate_limited_witness :
    (fetchWithRetry
        (fun _ => AttemptResult.resp
          { status := 429, retryAfter := some 2, statusText := "",
            json := Except.ok (JsVal.errObj none none) }) 3 1000).gets = 3 ∧
      (fetchWithRetry
        (fun _ => AttemptResult.resp
          { status := 429, retryAfter := some 2, statusText := "",
            json := Except.ok (JsVal.errObj none none) }) 3 1000).sleeps.length = 3 ∧
      (fetchWithRetry
        (fun _ => AttemptResult.resp
          { status := 429, retryAfter := some 2, statusText := "",
            json := Except.ok (JsVal.errObj none none) }) 3 1000).outcome = Outcome.retNull :=
  fetchWithRetry_all_rate_limited _ 3 1000 (fun _ _ => ⟨_, rfl, Or.inl rfl⟩)

/-- Claim C7 counterexample: a response with status 429 carrying an
invalid-symbol error body is a non-success status whose body signals an
invalid symbol, yet fetchWithRetry retries with backoff (5 GETs and 5 sleeps
with budget 5) instead of returning null on the first attempt — the rate
limit branch is checked before the body is read. -/
theorem fetchWithRetry_invalid_symbol_429_cex :
    ((fetchWithRetry
        (fun _ => AttemptResult.resp
          { status := 429, retryAfter := none, statusText := "",
            json := Except.ok (JsVal.errObj (some (-1121)) (some "Invalid symbol.")) })
        5 1000).gets = 5 ∧
      (fetchWithRetry
        (fun _ => AttemptResult.resp
          { status := 429, retryAfter := none, statusText := "",
            json := Except.ok (JsVal.errObj (some (-1121)) (some "Invalid symbol.")) })
        5 1000).sleeps.length = 5) ∧
      ¬ ((fetchWithRetry
        (fun _ => AttemptResult.resp
          { status := 429, retryAfter := none, statusText := "",
            json := Except.ok (JsVal.errObj (some (-1121)) (some "Invalid symbol.")) })
        5 1000).gets = 1 ∧
        (fetchWithRetry
        (fun _ => AttemptResult.resp
          { status := 429, retryAfter := none, statusText := "",
            json := Except.ok (JsVal.errObj (some (-1121)) (some "Invalid symbol.")) })
        5 1000).sleeps = []) := by
  decide

/-- Claim C7 amended: when the first GET yields a non-success status other
than 429/418 whose parsed body carries the invalid-symbol code -1121 or one
of the two invalid-symbol message variants (and not the transient-ban code
-1003), fetchWithRetry returns null after that single attempt with no
sleeps. -/
theorem fetchWithRetry_invalid_symbol_skips (script : ℕ → AttemptResult) (retries : ℕ)
    (delay : ℤ) (r : HttpResp) (body : JsVal) (hret : 1 ≤ retries)
    (h0 : script 0 = AttemptResult.resp r) (hok : respOk r.status = false)
    (h429 : r.status ≠ 429) (h418 : r.status ≠ 418) (hjson : r.json = Except.ok body)
    (hban : errCode body ≠ some (-1003))
    (hinv : errCode body = some (-1121) ∨ errMsg body = some "Invalid symbol." ∨
      errMsg body = some "Invalid symbol status.") :
    fetchWithRetry script retries delay =
      { gets := 1, sleeps := [], outcome := Outcome.retNull } := by
  obtain ⟨n, rfl⟩ : ∃ n, retries = n + 1 := ⟨retries - 1, by omega⟩
  rw [fetchWithRetry]
  simp only [fetchGo, h0]
  rw [if_neg (by tauto)]
  rw [hok]
  simp only [Bool.not_false, if_true, hjson]
  rw [if_neg hban, if_pos hinv]
  rfl

/-- Witness for C7 amended at a 400 response with code -1121 and message
Invalid symbol. -/
theorem fetchWithRetry_invalid_symbol_skips_witness :
    fetchWithRetry
        (fun _ => AttemptResult.resp
          { status := 400, retryAfter := none, statusText := "Bad Request",
            json := Except.ok (JsVal.errObj (some (-1121)) (some "Invalid symbol.")) })
        5 1000 =
      { gets := 1, sleeps := [], outcome := Outcome.retNull } :=
  fetchWithRetry_invalid_symbol_skips _ 5 1000 _ _ (by norm_num) rfl (by decide) (by decide)
    (by decide) rfl (by decide) (by decide)

/-- Claim C6: processBatch awaits Promise.all over the batch with no
per-symbol catch (App.js lines 429-434); one symbol rethrowing after its
retries rejects the whole await, so none of the other analyses of the batch
are appended — the code does not implement the per-symbol drop the spec
requires. Evaluated at the failing input. -/
theorem processBatch_rejection_aborts_batch :
    processBatchAppend ([] : List ℕ)
        [Except.ok (some 1), Except.error "network failure", Except.ok (some 2)] =
      Except.error "network failure" ∧
    processBatchAppend ([] : List ℕ)
        [Except.ok (some 1), Except.error "network failure", Except.ok (some 2)] ≠
      Except.ok [1, 2] := by
  decide

/-- Claim C9: for the 1d timeframe, prevSessionStart / prevSessionEnd are the
fixed pair yesterday 08:00 / today 07:45 (UTC+8 wall clock, i.e. Date.UTC
with hour 8 - 8 = 0 resp. 7 - 8) in both branches of the boundary test, and
in the before-08:00 branch the current session coincides with the previous
session. -/
theorem getSessions_prev_session_fixed (year month date nowMillis : ℤ) :
    (getSessions "1d" year month date nowMillis).map SessionWindow.prevSessionStart =
        some (getUTCMillisFor1d year month (date - 1) 8 0) ∧
      (getSessions "1d" year month date nowMillis).map SessionWindow.prevSessionEnd =
        some (getUTCMillisFor1d year month date 7 45) ∧
      (nowMillis < getUTCMillisFor1d year month date 8 0 →
        (getSessions "1d" year month date nowMillis).map SessionWindow.sessionStart =
          (getSessions "1d" year month date nowMillis).map SessionWindow.prevSessionStart ∧
        (getSessions "1d" year month date nowMillis).map SessionWindow.sessionEnd =
          (getSessions "1d" year month date nowMillis).map SessionWindow.prevSessionEnd) := by
  rw [getSessions, if_pos (Or.inr rfl)]
  by_cases h : nowMillis ≥ getUTCMillisFor1d year month date 8 0
  · rw [if_pos h]
    exact ⟨rfl, rfl, fun hlt => absurd hlt (not_lt.mpr h)⟩
  · rw [if_neg h]
    exact ⟨rfl, rfl, fun _ => ⟨rfl, rfl⟩⟩

/-- Witness for C9: at a call time before the 08:00 UTC+8 boundary of
2026-10-11, current and previous sessions coincide. -/
theorem getSessions_prev_session_fixed_witness :
    (getSessions "1d" 2026 9 11 0).map SessionWindow.sessionStart =
        (getSessions "1d" 2026 9 11 0).map SessionWindow.prevSessionStart ∧
      (getSessions "1d" 2026 9 11 0).map SessionWindow.sessionEnd =
        (getSessions "1d" 2026 9 11 0).map SessionWindow.prevSessionEnd :=
  (getSessions_prev_session_fixed 2026 9 11 0).2.2 (by decide)
